import Mathlib

/-!
Formal model of `assemble_video.py` (slides-to-video repository).

Shallow embedding conventions:
* Python floats are modelled as exact rationals (`ℚ`).  The claims under
  study are arithmetic identities and control-flow properties that are
  exact in the decimal arithmetic the source manipulates.
* ffmpeg filter stages, which the source renders to strings, are modelled
  as structured `AudioFilter` values carrying exactly the parameters the
  source interpolates into each stage string; the `%g` / `%.3f` rendering
  step is not modelled.
* Each external `ffmpeg` encoder invocation is modelled as a `Cmd` value;
  a pipeline run produces the list of invocations it performs.
* The filesystem (artifact existence checks) is modelled as a record of
  boolean predicates (`FS`), and external process results as an
  `EncoderResult` (return code plus the parse result of the diagnostic
  stream, abstracting the regex/JSON scraping of `_parse_loudnorm_stats`
  which operates on arbitrary tool output).
-/

/-! ## Constants (module-level constants of assemble_video.py) -/

def PRE_PAD : ℚ := 1
def POST_PAD : ℚ := 1
def SILENT_SLIDE_DUR : ℚ := 2
def TRANSITION_DURATION : ℚ := 1/2

/-! ## Audio post-processing configuration

`AudioPostProcessConfig` is a nested tree of five sections.  The Python
source reads it from dicts via `.get` with defaults; the structures below
carry every recognized key (the `.get` default fills any missing key, so a
total structure ranges over exactly the same effective configurations). -/

structure DeesserCfg where
  enabled : Bool
  intensity : ℚ
  mode : String
  frequency : Int
deriving Repr, DecidableEq

structure HighpassCfg where
  enabled : Bool
  frequency : ℚ
deriving Repr, DecidableEq

structure PresenceEqCfg where
  enabled : Bool
  frequency : ℚ
  width_octave : ℚ
  gain_db : ℚ
deriving Repr, DecidableEq

structure LoudnormCfg where
  enabled : Bool
  two_pass : Bool
  I : ℚ
  LRA : ℚ
  TP : ℚ
deriving Repr, DecidableEq

structure LimiterCfg where
  enabled : Bool
  intensity : ℚ
  base_limit : ℚ
  attack : ℚ
  release : ℚ
deriving Repr, DecidableEq

structure AudioConfig where
  deesser : DeesserCfg
  highpass : HighpassCfg
  presence_eq : PresenceEqCfg
  loudnorm : LoudnormCfg
  limiter : LimiterCfg
deriving Repr, DecidableEq

/-- `DEFAULT_AUDIO_POSTPROCESSING` as a structured configuration value. -/
def DEFAULT_AUDIO_POSTPROCESSING : AudioConfig :=
  { deesser := { enabled := false, intensity := 0, mode := "wide", frequency := 6000 }
    highpass := { enabled := true, frequency := 80 }
    presence_eq := { enabled := true, frequency := 3000, width_octave := 3/2, gain_db := 3/2 }
    loudnorm := { enabled := true, two_pass := false, I := -16, LRA := 11, TP := -3/2 }
    limiter := { enabled := true, intensity := 1, base_limit := 891/1000, attack := 5, release := 50 } }

/-- One stage of the ffmpeg audio filter chain.  Each constructor carries
exactly the parameters the source interpolates into the stage string.
`loudnormMeasured` is the two-pass stage built by
`build_two_pass_loudnorm_filter`: targets, the five measured statistics and
the literal `linear=true` flag; `loudnormAnalysis` is the measurement-mode
stage (`print_format=json`) used by `run_loudnorm_analysis`. -/
inductive AudioFilter where
  | deesser (i : ℚ) (m : String) (f : Int)
  | highpass (f : ℚ)
  | equalizer (f : ℚ) (width : ℚ) (g : ℚ)
  | loudnorm (I : ℚ) (LRA : ℚ) (TP : ℚ)
  | loudnormAnalysis (I : ℚ) (LRA : ℚ) (TP : ℚ)
  | loudnormMeasured (I : ℚ) (LRA : ℚ) (TP : ℚ)
      (measured_I : ℚ) (measured_LRA : ℚ) (measured_TP : ℚ)
      (measured_thresh : ℚ) (offset : ℚ) (linear : Bool)
  | alimiter (limit : ℚ) (attack : ℚ) (release : ℚ)
  | anull
deriving Repr, DecidableEq

/-- The de-esser block of `build_audio_filter_chain`: appended when enabled
and the (clamped-below-at-0) intensity is positive. -/
def deesserStage (c : DeesserCfg) : List AudioFilter :=
  if c.enabled then
    let intensity := max 0 c.intensity
    if 0 < intensity then [.deesser intensity c.mode c.frequency] else []
  else []

/-- The high-pass block: appended when enabled and the cutoff is positive. -/
def highpassStage (c : HighpassCfg) : List AudioFilter :=
  if c.enabled then
    let freq := c.frequency
    if 0 < freq then [.highpass freq] else []
  else []

/-- The presence-EQ block: appended when enabled and `abs(gain) > 1e-3`. -/
def presenceStage (c : PresenceEqCfg) : List AudioFilter :=
  if c.enabled then
    let gain := c.gain_db
    if 1/1000 < |gain| then [.equalizer c.frequency c.width_octave gain] else []
  else []

/-- The loudness block: the caller-supplied override when one is given,
otherwise the single-pass loudnorm stage when enabled. -/
def loudnormStage (c : LoudnormCfg) (loudnorm_override : Option AudioFilter) :
    List AudioFilter :=
  match loudnorm_override with
  | some ov => [ov]
  | none => if c.enabled then [.loudnorm c.I c.LRA c.TP] else []

/-- The limiter block: appended when requested and enabled; the effective
ceiling is `min(1.0, base_limit + (1 - base_limit) * (1 - intensity))` with
the intensity clamped below at 0. -/
def limiterStage (include_limiter : Bool) (c : LimiterCfg) : List AudioFilter :=
  if include_limiter && c.enabled then
    let base_limit := c.base_limit
    let intensity := max 0 c.intensity
    let limit := min 1 (base_limit + (1 - base_limit) * (1 - intensity))
    [.alimiter limit c.attack c.release]
  else []

/-- Model of `build_audio_filter_chain(config, include_limiter, loudnorm_override)`.
The source appends stage strings to a list in program order and joins them,
returning the passthrough string `"anull"` when the list is empty; here the
chain is the list of structured stages, with `[.anull]` for the empty case.
The `loudnorm_override : str | None` parameter becomes `Option AudioFilter`
(the override strings the callers pass are always non-empty, so Python's
truthiness test on it coincides with `Option.isSome`). -/
def build_audio_filter_chain (config : AudioConfig)
    (include_limiter : Bool := true)
    (loudnorm_override : Option AudioFilter := none) : List AudioFilter :=
  let filters :=
    deesserStage config.deesser ++ highpassStage config.highpass ++
      presenceStage config.presence_eq ++
      loudnormStage config.loudnorm loudnorm_override ++
      limiterStage include_limiter config.limiter
  if filters.isEmpty then [.anull] else filters

/-- The five-field statistics record produced by the loudnorm analysis pass
(`input_i`, `input_lra`, `input_tp`, `input_thresh`, `target_offset`). -/
structure LoudnormStats where
  input_i : ℚ
  input_lra : ℚ
  input_tp : ℚ
  input_thresh : ℚ
  target_offset : ℚ
deriving Repr, DecidableEq

/-- Model of `build_two_pass_loudnorm_filter(config, stats)`: builds the
measured loudnorm stage (targets + five measured values + `linear=true`)
and passes it as the loudness override of the full chain with the limiter
included. -/
def build_two_pass_loudnorm_filter (config : AudioConfig) (stats : LoudnormStats) :
    List AudioFilter :=
  let loudnorm : AudioFilter :=
    .loudnormMeasured config.loudnorm.I config.loudnorm.LRA config.loudnorm.TP
      stats.input_i stats.input_lra stats.input_tp stats.input_thresh
      stats.target_offset true
  build_audio_filter_chain config true (some loudnorm)

/-- Result of an external encoder invocation: its return code together with
the outcome of scraping the loudnorm statistics block from its diagnostic
stream (`_parse_loudnorm_stats` applied to stderr, abstracted: `none` when
the block cannot be located or its JSON cannot be parsed). -/
structure EncoderResult where
  returncode : Int
  parsedStats : Option LoudnormStats
deriving Repr, DecidableEq

/-- Model of `run_loudnorm_analysis`'s returned value: `None` when the
analysis process exits non-zero, otherwise the parse result of its stderr. -/
def run_loudnorm_analysis (res : EncoderResult) : Option LoudnormStats :=
  if res.returncode ≠ 0 then none else res.parsedStats

/-- The analysis-mode loudness chain used by `run_loudnorm_analysis`: the
full chain minus limiter, with the measurement-mode loudnorm stage. -/
def loudnorm_analysis_chain (config : AudioConfig) : List AudioFilter :=
  build_audio_filter_chain config false
    (some (.loudnormAnalysis config.loudnorm.I config.loudnorm.LRA config.loudnorm.TP))

/-- Filter-chain selection inside `mux_video_audio`: two-pass when
configured and the analysis produced statistics, single-pass otherwise
(including the fallback when the analysis failed or was unparsable). -/
def mux_audio_filters (config : AudioConfig) (analysisRes : EncoderResult) :
    List AudioFilter :=
  if config.loudnorm.enabled && config.loudnorm.two_pass then
    match run_loudnorm_analysis analysisRes with
    | some stats => build_two_pass_loudnorm_filter config stats
    | none => build_audio_filter_chain config
  else build_audio_filter_chain config

/-! ## JSON values and the configuration deep merge

`load_audio_postprocess_config` manipulates parsed JSON (Python dicts).
JSON values are modelled by `J`; objects are association lists with the
unique-key invariant JSON parsing guarantees. -/

inductive J where
  | obj : List (String × J) → J
  | arr : List J → J
  | str : String → J
  | num : ℚ → J
  | bool : Bool → J
  | null : J

/-- Python truthiness of an optional JSON value (`if not lang_cfg:` etc.):
`None`, `False`, `0`, `""`, `[]` and `{}` are falsy. -/
def pyTruthy : Option J → Bool
  | none => false
  | some (.obj l) => !l.isEmpty
  | some (.arr l) => !l.isEmpty
  | some (.str s) => !(s == "")
  | some (.num q) => !(q == 0)
  | some (.bool b) => b
  | some .null => false

/-- Dict lookup (`d.get(k)` / `d[k]`): value at the first binding of `k`. -/
def jLookup : List (String × J) → String → Option J
  | [], _ => none
  | (k', v) :: rest, k => if k' = k then some v else jLookup rest k

/-- Dict item assignment (`d[k] = v`): replace the first binding of `k`
in place (Python dicts keep the original insertion position), or append. -/
def jUpdate : List (String × J) → String → J → List (String × J)
  | [], k, v => [(k, v)]
  | (k', v') :: rest, k, v =>
    if k' = k then (k, v) :: rest else (k', v') :: jUpdate rest k v

mutual
/-- The per-key decision of `_deep_merge`: when both the accumulated value
at the key (`merged.get(key)`) and the override value are objects, merge
them recursively; otherwise the override value replaces the accumulated
value outright. -/
def mergeEntry : Option J → J → J
  | some (.obj o1), .obj o2 => .obj (deepMergeObj o1 o2)
  | _, v => v
termination_by _o v => sizeOf v
decreasing_by
  simp only [J.obj.sizeOf_spec]
  omega

/-- Model of `_deep_merge(base, override)` on objects: start from a copy of
`base` and fold over `override`'s items in order, assigning each key the
`mergeEntry` of the accumulated value and the override value. -/
def deepMergeObj : List (String × J) → List (String × J) → List (String × J)
  | base, [] => base
  | base, (k, v) :: rest =>
    deepMergeObj (jUpdate base k (mergeEntry (jLookup base k) v)) rest
termination_by _base l => sizeOf l
decreasing_by
  · simp only [List.cons.sizeOf_spec, Prod.mk.sizeOf_spec]
    omega
  · simp only [List.cons.sizeOf_spec]
    omega
end

/-- `DEFAULT_AUDIO_POSTPROCESSING` as the JSON tree the source declares. -/
def defaultAPCJson : List (String × J) :=
  [("deesser", .obj [("enabled", .bool false), ("intensity", .num 0),
      ("mode", .str "wide"), ("frequency", .num 6000)]),
   ("highpass", .obj [("enabled", .bool true), ("frequency", .num 80)]),
   ("presence_eq", .obj [("enabled", .bool true), ("frequency", .num 3000),
      ("width_octave", .num (3/2)), ("gain_db", .num (3/2))]),
   ("loudnorm", .obj [("enabled", .bool true), ("two_pass", .bool false),
      ("I", .num (-16)), ("LRA", .num 11), ("TP", .num (-3/2))]),
   ("limiter", .obj [("enabled", .bool true), ("intensity", .num 1),
      ("base_limit", .num (891/1000)), ("attack", .num 5), ("release", .num 50)])]

/-- Outcome of opening and parsing `lang_config.json`: the file may be
missing (`FileNotFoundError`), malformed (`JSONDecodeError`), or parse to
a top-level JSON object (the shape a language-config file has; a non-object
top level is outside the behaviour specified here). -/
inductive ConfigFileRead where
  | missing
  | malformed
  | parsed (allConfig : List (String × J))

/-- `.get(key, {})` on a value that must be a dict: raises `AttributeError`
when the value is not a dict (modelled as `.error`), returns `{}` when the
key is absent, and requires the found value itself to be usable as a dict
by the subsequent `_deep_merge` / `.get` (which would otherwise raise when
iterating `override.items()`). -/
def jGetObjD (v : J) (key : String) : Except String (List (String × J)) :=
  match v with
  | .obj l =>
    match jLookup l key with
    | none => .ok []
    | some (.obj m) => .ok m
    | some _ => .error "TypeError: value is not an object"
  | _ => .error "AttributeError: not a dict"

/-- Model of `load_audio_postprocess_config(lang, voice_id)`.  The file
read is a parameter; the result is `Except` to record the exceptional
paths (attribute errors on non-dict values), `.ok` otherwise.  Missing or
malformed file, or an absent (falsy) language entry, degrade to the
built-in defaults. -/
def load_audio_postprocess_config (file : ConfigFileRead) (lang : String)
    (voice_id : Option String) : Except String (List (String × J)) :=
  match file with
  | .missing => .ok defaultAPCJson
  | .malformed => .ok defaultAPCJson
  | .parsed allConfig =>
    let lang_cfg := jLookup allConfig lang
    if !pyTruthy lang_cfg then .ok defaultAPCJson
    else
      match lang_cfg with
      | none => .ok defaultAPCJson
      | some lcv =>
        match jGetObjD lcv "audio_postprocessing" with
        | .error e => .error e
        | .ok ap =>
          let config := deepMergeObj defaultAPCJson ap
          match voice_id with
          | none => .ok config
          | some v =>
            if v ≠ "" then
              match jGetObjD lcv "voice_overrides" with
              | .error e => .error e
              | .ok vo =>
                match
                  (match jLookup vo v with
                   | none => Except.ok []
                   | some (.obj m) => Except.ok m
                   | some _ =>
                     (Except.error "AttributeError: not a dict" :
                       Except String (List (String × J)))) with
                | .error e => .error e
                | .ok vc =>
                  match jGetObjD (.obj vc) "audio_postprocessing" with
                  | .error e => .error e
                  | .ok vap => .ok (deepMergeObj config vap)
            else .ok config

/-! ## Slide notes and the preflight validator -/

/-- One entry of the notes JSON: `{"slide": n, "text": s}`. -/
structure Note where
  slide : Nat
  text : String
deriving Repr, DecidableEq

/-- Python's `str.strip()`: drop leading and trailing whitespace. -/
def pyStrip (s : String) : String :=
  .mk (((s.data.dropWhile Char.isWhitespace).reverse.dropWhile Char.isWhitespace).reverse)

/-- Model of `_is_narrated_slide(note)`: `bool(str(note.get("text", "")).strip())`. -/
def is_narrated_slide (note : Note) : Bool :=
  !(pyStrip note.text == "")

/-- The failure report of the preflight validator: the slide numbers with a
missing narration WAV (in note order) and, as a soft diagnostic only, those
of them at which a legacy MP3 was found. -/
structure PreflightReport where
  missing_wav : List Nat
  legacy_mp3_present : List Nat
deriving Repr, DecidableEq

/-- The scan loop of `preflight_audio_files`: walk the notes in order; skip
un-narrated slides; skip narrated slides whose WAV exists; collect the rest
as missing, noting an MP3 at the same slide number when present. -/
def preflightScan (wavExists mp3Exists : Nat → Bool) : List Note → List Nat × List Nat
  | [] => ([], [])
  | note :: rest =>
    let (m, l) := preflightScan wavExists mp3Exists rest
    if !is_narrated_slide note then (m, l)
    else if wavExists note.slide then (m, l)
    else (note.slide :: m, if mp3Exists note.slide then note.slide :: l else l)

/-- Model of `preflight_audio_files(notes, audio_dir)`: returns normally
when no narrated slide is missing its WAV, otherwise raises
`FileNotFoundError` carrying the printed report. -/
def preflight_audio_files (notes : List Note) (wavExists mp3Exists : Nat → Bool) :
    Except PreflightReport Unit :=
  let (m, l) := preflightScan wavExists mp3Exists notes
  if m.isEmpty then .ok () else .error ⟨m, l⟩

/-! ## Video slideshow builder -/

/-- The crossfade offset loop of `build_video_slideshow`: starting from
`cumulative`, each remaining duration `d` yields the offset
`cumulative + d - T` clamped below at `0.1`, and `cumulative` is updated to
that offset (not to the raw sum of durations). -/
def xfadeOffsets (T : ℚ) (cumulative : ℚ) : List ℚ → List ℚ
  | [] => []
  | d :: rest =>
    let offset := cumulative + d - T
    let offset := if offset < 1/10 then 1/10 else offset
    offset :: xfadeOffsets T offset rest

/-- The offsets emitted into the filter graph for `n = len(notes)` slides:
transition `i` (for `i = 1 .. n-1`) consumes `slide_durations[i-1]`, so the
loop walks the first `n - 1` durations starting from `cumulative = 0`. -/
def slideshowOffsets (n : Nat) (slide_durations : List ℚ) (T : ℚ) : List ℚ :=
  xfadeOffsets T 0 (slide_durations.take (n - 1))

/-- One external ffmpeg invocation performed by the pipeline. -/
inductive Cmd where
  | padAudio (slide : Nat)
  | makeSilence (slide : Nat)
  | concatAudio
  | slideshowEncode (offsets : List ℚ) (transition : ℚ)
  | renderSeg (slide : Nat) (dur : ℚ)
  | concatSegs
  | analysisPass (chain : List AudioFilter)
  | muxEncode (chain : List AudioFilter)
deriving Repr, DecidableEq

/-- The per-slide render loop of `_fallback_concat_video`: each slide whose
segment file `seg_XX.mp4` does not yet exist is rendered as an independent
clip of exactly its duration; a rendered segment is cached by slide number,
so a later occurrence of the same number reuses it. -/
def fallbackRender (segExists : Nat → Bool) : List (Note × ℚ) → List Cmd
  | [] => []
  | (note, dur) :: rest =>
    if segExists note.slide then fallbackRender segExists rest
    else .renderSeg note.slide dur ::
      fallbackRender (fun s => if s = note.slide then true else segExists s) rest

/-- Encoder invocations of `_fallback_concat_video`: render the missing
per-slide segments, then concatenate all segments (no transitions). -/
def fallback_concat_video (notes : List Note) (slide_durations : List ℚ)
    (segExists : Nat → Bool) : List Cmd :=
  fallbackRender segExists (notes.zip slide_durations) ++ [.concatSegs]

/-- Encoder invocations of `build_video_slideshow`: one attempt at the
crossfade graph (for `n = 1` the graph has no xfade stages, hence no
offsets); when that invocation exits non-zero (`xfadeFails`), the hard-cut
fallback runs immediately — there is no retry of the crossfade path.
`main` always passes `slide_durations` with one entry per note. -/
def build_video_slideshow (notes : List Note) (slide_durations : List ℚ)
    (T : ℚ) (xfadeFails : Bool) (segExists : Nat → Bool) : List Cmd :=
  let offsets :=
    if notes.length == 1 then [] else slideshowOffsets notes.length slide_durations T
  .slideshowEncode offsets T ::
    (if xfadeFails then fallback_concat_video notes slide_durations segExists else [])

/-! ## The main pipeline -/

/-- The artifact/filesystem state consulted by one run of `main`:
`audioRaw` is the input narration WAV per slide, the rest are work-area
artifacts.  `outputExists` records whether the final output file is already
present — `main` never consults it. -/
structure FS where
  audioRaw : Nat → Bool
  mp3Exists : Nat → Bool
  padded : Nat → Bool
  silence : Nat → Bool
  fullAudio : Bool
  videoOnly : Bool
  segExists : Nat → Bool
  outputExists : Bool

/-- Step 1 of `main`: for each note, pad its narration audio (skipped when
the padded artifact exists), or synthesize the fixed silence clip (skipped
when it exists). -/
def step1Cmds (fs : FS) (notes : List Note) : List Cmd :=
  notes.flatMap fun note =>
    if fs.audioRaw note.slide then
      if fs.padded note.slide then [] else [.padAudio note.slide]
    else
      if fs.silence note.slide then [] else [.makeSilence note.slide]

/-- Step 1's duration list: the padded-file duration for narrated input,
the fixed `SILENT_SLIDE_DUR` otherwise.  `padDur` abstracts the `ffprobe`
reads of the padded artifacts. -/
def slideDurations (fs : FS) (padDur : Nat → ℚ) (notes : List Note) : List ℚ :=
  notes.map fun note =>
    if fs.audioRaw note.slide then padDur note.slide else SILENT_SLIDE_DUR

/-- Encoder invocations of `mux_video_audio`: when two-pass loudness is
configured the analysis pass runs first, then — unconditionally — the
single final mux encode with the selected filter chain. -/
def mux_video_audio (config : AudioConfig) (analysisRes : EncoderResult) : List Cmd :=
  (if config.loudnorm.enabled && config.loudnorm.two_pass then
    [.analysisPass (loudnorm_analysis_chain config)]
  else []) ++ [.muxEncode (mux_audio_filters config analysisRes)]

/-- Encoder invocations of one run of `main`: preflight first (its failure
aborts the run before any encoder is invoked), then step 1 per slide, the
audio concatenation and the video slideshow (each skipped when its artifact
exists), and finally the mux — which is not guarded by any existence
check. -/
def mainCmds (notes : List Note) (fs : FS) (padDur : Nat → ℚ)
    (config : AudioConfig) (xfadeFails : Bool) (analysisRes : EncoderResult) :
    Except PreflightReport (List Cmd) := do
  let _ ← preflight_audio_files notes fs.audioRaw fs.mp3Exists
  let durs := slideDurations fs padDur notes
  let step1 := step1Cmds fs notes
  let step2 := if fs.fullAudio then [] else [Cmd.concatAudio]
  let step3 :=
    if fs.videoOnly then []
    else build_video_slideshow notes durs TRANSITION_DURATION xfadeFails fs.segExists
  let step4 := mux_video_audio config analysisRes
  pure (step1 ++ step2 ++ step3 ++ step4)

/-! ## Lemmas about the crossfade offset loop -/

lemma offset_clamp_eq_max (x : ℚ) : (if x < 1/10 then 1/10 else x) = max (1/10) x := by
  split
  · exact (max_eq_left (le_of_lt (by assumption))).symm
  · exact (max_eq_right (le_of_not_lt (by assumption))).symm

lemma xfadeOffsets_length (T c : ℚ) (l : List ℚ) :
    (xfadeOffsets T c l).length = l.length := by
  induction l generalizing c with
  | nil => rfl
  | cons d rest ih => simp [xfadeOffsets, ih]

lemma xfadeOffsets_ge (T c : ℚ) (l : List ℚ) :
    ∀ o ∈ xfadeOffsets T c l, 1/10 ≤ o := by
  induction l generalizing c with
  | nil => intro o ho; simp [xfadeOffsets] at ho
  | cons d rest ih =>
    intro o ho
    simp only [xfadeOffsets, List.mem_cons] at ho
    rcases ho with h | h
    · subst h
      rw [offset_clamp_eq_max]
      exact le_max_left _ _
    · exact ih _ o h

lemma xfadeOffsets_getD_zero (T c : ℚ) (d : ℚ) (rest : List ℚ) :
    (xfadeOffsets T c (d :: rest)).getD 0 0 = max (1/10) (c + d - T) := by
  simp only [xfadeOffsets, List.getD_cons_zero]
  exact offset_clamp_eq_max _

lemma xfadeOffsets_getD_succ (T : ℚ) (l : List ℚ) :
    ∀ c i, i + 1 < l.length →
      (xfadeOffsets T c l).getD (i + 1) 0 =
        max (1/10) ((xfadeOffsets T c l).getD i 0 + l.getD (i + 1) 0 - T) := by
  induction l with
  | nil => intro c i h; simp at h
  | cons d rest ih =>
    intro c i h
    match i with
    | 0 =>
      have hrest : rest ≠ [] := by
        intro hr
        rw [hr] at h
        simp at h
      match rest, hrest with
      | d' :: rest', _ =>
        simp only [xfadeOffsets, List.getD_cons_succ, List.getD_cons_zero]
        exact offset_clamp_eq_max _
    | Nat.succ j =>
      have hj : j + 1 < rest.length := by
        simpa using Nat.lt_of_succ_lt_succ h
      simp only [xfadeOffsets, List.getD_cons_succ]
      exact ih _ j hj

lemma getD_take_of_lt (l : List ℚ) (n i : Nat) (h : i < n) :
    (l.take n).getD i 0 = l.getD i 0 := by
  simp [List.getD, List.getElem?_take, h]

/-- C1: in `build_video_slideshow`, for every list of more than one slide
duration and transition duration `T`, the emitted crossfade offsets follow
the recurrence `offset_i = cumulative + duration[i] - T` with `cumulative`
starting at `0` and updated to the (clamped) offset after each step, and
every emitted offset is clamped to a minimum of `0.1` seconds — strictly
positive even when a slide's duration is shorter than `T`. -/
theorem c1_crossfade_offset_recurrence_and_clamp
    (slide_durations : List ℚ) (T : ℚ) (h : 1 < slide_durations.length) :
    (slideshowOffsets slide_durations.length slide_durations T).length =
        slide_durations.length - 1 ∧
    (slideshowOffsets slide_durations.length slide_durations T).getD 0 0 =
        max (1/10) (0 + slide_durations.getD 0 0 - T) ∧
    (∀ i, i + 1 < (slideshowOffsets slide_durations.length slide_durations T).length →
      (slideshowOffsets slide_durations.length slide_durations T).getD (i + 1) 0 =
        max (1/10)
          ((slideshowOffsets slide_durations.length slide_durations T).getD i 0 +
            slide_durations.getD (i + 1) 0 - T)) ∧
    (∀ o ∈ slideshowOffsets slide_durations.length slide_durations T,
      1/10 ≤ o ∧ 0 < o) := by
  have hlen : (slideshowOffsets slide_durations.length slide_durations T).length =
      slide_durations.length - 1 := by
    simp only [slideshowOffsets, xfadeOffsets_length, List.length_take]
    omega
  refine ⟨hlen, ?_, ?_, ?_⟩
  · match slide_durations, h with
    | d :: d' :: rest, _ =>
      have htake : ((d :: d' :: rest).take ((d :: d' :: rest).length - 1)) =
          d :: (d' :: rest).take (rest.length + 1 - 1) := by
        simp
      unfold slideshowOffsets
      rw [htake, xfadeOffsets_getD_zero]
      simp
  · intro i hi
    have hi' : i + 1 < slide_durations.length - 1 := hlen ▸ hi
    unfold slideshowOffsets
    rw [xfadeOffsets_getD_succ T
        (slide_durations.take (slide_durations.length - 1)) 0 i
        (by simp only [List.length_take]; omega),
      getD_take_of_lt _ _ _ hi']
  · intro o ho
    have h1 := xfadeOffsets_ge T 0 (slide_durations.take (slide_durations.length - 1)) o ho
    exact ⟨h1, lt_of_lt_of_le (by norm_num) h1⟩

/-- Witness for C1 at the spec's own example: durations `[5.2, 2.0, 5.2]`,
`T = 0.5`, giving offsets `[4.7, 6.2]`. -/
theorem c1_crossfade_offset_recurrence_and_clamp_witness :
    (1 < ([26/5, 2, 26/5] : List ℚ).length) ∧
    ((slideshowOffsets ([26/5, 2, 26/5] : List ℚ).length [26/5, 2, 26/5] (1/2)).getD 0 0 =
        max (1/10) (0 + ([26/5, 2, 26/5] : List ℚ).getD 0 0 - 1/2)) ∧
    (∀ o ∈ slideshowOffsets ([26/5, 2, 26/5] : List ℚ).length [26/5, 2, 26/5] (1/2),
      1/10 ≤ o ∧ 0 < o) ∧
    slideshowOffsets 3 [26/5, 2, 26/5] (1/2) = [47/10, 31/5] := by
  have main := c1_crossfade_offset_recurrence_and_clamp [26/5, 2, 26/5] (1/2) (by norm_num)
  refine ⟨by norm_num, main.2.1, main.2.2.2, ?_⟩
  norm_num [slideshowOffsets, xfadeOffsets]

/-! ## Lemmas about the hard-cut fallback -/

lemma fallbackRender_only_renderSeg (l : List (Note × ℚ)) :
    ∀ seg, ∀ c ∈ fallbackRender seg l, ∃ sn d, c = Cmd.renderSeg sn d := by
  induction l with
  | nil => intro seg c hc; simp [fallbackRender] at hc
  | cons p rest ih =>
    intro seg c hc
    simp only [fallbackRender] at hc
    split at hc
    · exact ih seg c hc
    · rcases List.mem_cons.mp hc with h | h
      · exact ⟨p.1.slide, p.2, h⟩
      · exact ih _ c h

lemma fallbackRender_no_rerender (l : List (Note × ℚ)) :
    ∀ seg sn, seg sn = true → ∀ d, Cmd.renderSeg sn d ∉ fallbackRender seg l := by
  induction l with
  | nil => intro seg sn _ d hc; simp [fallbackRender] at hc
  | cons p rest ih =>
    intro seg sn hsn d hc
    simp only [fallbackRender] at hc
    split at hc
    · exact ih seg sn hsn d hc
    · rcases List.mem_cons.mp hc with h | h
      · have : sn = p.1.slide := by
          cases h
          rfl
        subst this
        simp_all
      · refine ih _ sn ?_ d h
        by_cases hs : sn = p.1.slide <;> simp [hs, hsn]

lemma fallbackRender_all_missing (l : List (Note × ℚ)) :
    ∀ seg, (l.map (fun p => p.1.slide)).Nodup →
      (∀ p ∈ l, seg p.1.slide = false) →
      fallbackRender seg l = l.map (fun p => Cmd.renderSeg p.1.slide p.2) := by
  induction l with
  | nil => intro seg _ _; rfl
  | cons p rest ih =>
    intro seg hnd hmiss
    have hp : seg p.1.slide = false := hmiss p (List.mem_cons_self p rest)
    simp only [fallbackRender, hp, Bool.false_eq_true, if_false, List.map_cons]
    congr 1
    rw [List.map_cons, List.nodup_cons] at hnd
    refine ih _ hnd.2 ?_
    intro q hq
    have hne : q.1.slide ≠ p.1.slide := by
      intro he
      exact hnd.1 (he ▸ List.mem_map_of_mem (fun r => r.1.slide) hq)
    simp [hne, hmiss q (List.mem_cons_of_mem p hq)]

/-- C5: when the crossfade graph execution exits non-zero,
`build_video_slideshow` invokes the hard-cut fallback immediately, with no
retry of the crossfade attempt (the fallback performs only per-slide
segment renders and one concat); the fallback renders every slide whose
segment file is absent as an independent fixed-duration clip of exactly its
`slide_durations` entry, reuses (never re-renders) any per-slide-number
segment file that already exists, and ends by concatenating the segments
without transitions. -/
theorem c5_crossfade_failure_fallback (notes : List Note) (slide_durations : List ℚ)
    (T : ℚ) (segExists : Nat → Bool) :
    build_video_slideshow notes slide_durations T true segExists =
      Cmd.slideshowEncode
          (if notes.length == 1 then [] else slideshowOffsets notes.length slide_durations T) T ::
        (fallbackRender segExists (notes.zip slide_durations) ++ [Cmd.concatSegs]) ∧
    (∀ offs T', Cmd.slideshowEncode offs T' ∉
      fallback_concat_video notes slide_durations segExists) ∧
    (((notes.zip slide_durations).map (fun p => p.1.slide)).Nodup →
      (∀ p ∈ notes.zip slide_durations, segExists p.1.slide = false) →
      fallbackRender segExists (notes.zip slide_durations) =
        (notes.zip slide_durations).map (fun p => Cmd.renderSeg p.1.slide p.2)) ∧
    (∀ sn, segExists sn = true →
      ∀ d, Cmd.renderSeg sn d ∉ fallbackRender segExists (notes.zip slide_durations)) := by
  refine ⟨rfl, ?_, fallbackRender_all_missing _ segExists,
    fun sn h d => fallbackRender_no_rerender _ segExists sn h d⟩
  intro offs T' hmem
  simp only [fallback_concat_video, List.mem_append, List.mem_singleton] at hmem
  rcases hmem with h | h
  · obtain ⟨sn, d, he⟩ := fallbackRender_only_renderSeg _ segExists _ h
    exact Cmd.noConfusion he
  · exact Cmd.noConfusion h

/-- Witness for C5: two slides of durations 2 and 3 seconds, no cached
segments — the failed crossfade attempt is followed by exactly one render
per slide at its own duration and the final concat. -/
theorem c5_crossfade_failure_fallback_witness :
    ((([⟨1, "a"⟩, ⟨2, "b"⟩] : List Note).zip ([2, 3] : List ℚ)).map
        (fun p => p.1.slide)).Nodup ∧
    (∀ p ∈ ([⟨1, "a"⟩, ⟨2, "b"⟩] : List Note).zip ([2, 3] : List ℚ),
      (fun _ => false : Nat → Bool) p.1.slide = false) ∧
    fallbackRender (fun _ => false) (([⟨1, "a"⟩, ⟨2, "b"⟩] : List Note).zip ([2, 3] : List ℚ)) =
      [Cmd.renderSeg 1 2, Cmd.renderSeg 2 3] := by
  have main := c5_crossfade_failure_fallback [⟨1, "a"⟩, ⟨2, "b"⟩] ([2, 3] : List ℚ)
    (1/2) (fun _ => false)
  refine ⟨by decide, by intro p _; rfl, ?_⟩
  rw [main.2.2.1 (by decide) (by intro p _; rfl)]
  rfl

/-! ## The audio filter chain: order, conditions, limiter, two-pass stage -/

/-- The filter chain as the spec's words state it (§4.6 / C7): the five
stages in the fixed order de-esser, high-pass, presence EQ, loudness,
limiter, each included only under its stated condition, degenerating to the
no-op passthrough when no stage qualifies.  Declared for comparison with
`build_audio_filter_chain`, which is translated from the source. -/
def specAudioFilterChain (config : AudioConfig) (include_limiter : Bool)
    (loudnorm_override : Option AudioFilter) : List AudioFilter :=
  let ds := if config.deesser.enabled = true ∧ 0 < config.deesser.intensity then
      [AudioFilter.deesser (max 0 config.deesser.intensity) config.deesser.mode
        config.deesser.frequency]
    else []
  let hp := if config.highpass.enabled = true ∧ 0 < config.highpass.frequency then
      [AudioFilter.highpass config.highpass.frequency]
    else []
  let pe := if config.presence_eq.enabled = true ∧ 1/1000 < |config.presence_eq.gain_db| then
      [AudioFilter.equalizer config.presence_eq.frequency config.presence_eq.width_octave
        config.presence_eq.gain_db]
    else []
  let ln := match loudnorm_override with
    | some ov => [ov]
    | none =>
      if config.loudnorm.enabled = true then
        [AudioFilter.loudnorm config.loudnorm.I config.loudnorm.LRA config.loudnorm.TP]
      else []
  let lm := if include_limiter = true ∧ config.limiter.enabled = true then
      [AudioFilter.alimiter
        (min 1 (config.limiter.base_limit +
          (1 - config.limiter.base_limit) * (1 - max 0 config.limiter.intensity)))
        config.limiter.attack config.limiter.release]
    else []
  let stages := ds ++ hp ++ pe ++ ln ++ lm
  if stages = [] then [AudioFilter.anull] else stages

lemma deesserStage_eq (c : DeesserCfg) :
    deesserStage c =
      if c.enabled = true ∧ 0 < c.intensity then
        [AudioFilter.deesser (max 0 c.intensity) c.mode c.frequency]
      else [] := by
  unfold deesserStage
  by_cases h1 : c.enabled <;> by_cases h2 : 0 < c.intensity <;>
    simp [h1, h2, lt_max_iff]

lemma highpassStage_eq (c : HighpassCfg) :
    highpassStage c =
      if c.enabled = true ∧ 0 < c.frequency then [AudioFilter.highpass c.frequency]
      else [] := by
  unfold highpassStage
  by_cases h1 : c.enabled <;> by_cases h2 : 0 < c.frequency <;> simp [h1, h2]

lemma presenceStage_eq (c : PresenceEqCfg) :
    presenceStage c =
      if c.enabled = true ∧ 1/1000 < |c.gain_db| then
        [AudioFilter.equalizer c.frequency c.width_octave c.gain_db]
      else [] := by
  unfold presenceStage
  by_cases h1 : c.enabled <;> by_cases h2 : 1/1000 < |c.gain_db| <;> simp [h1, h2]

lemma limiterStage_eq (il : Bool) (c : LimiterCfg) :
    limiterStage il c =
      if il = true ∧ c.enabled = true then
        [AudioFilter.alimiter
          (min 1 (c.base_limit + (1 - c.base_limit) * (1 - max 0 c.intensity)))
          c.attack c.release]
      else [] := by
  unfold limiterStage
  by_cases h1 : il <;> by_cases h2 : c.enabled <;> simp [h1, h2]

lemma loudnormStage_eq (c : LoudnormCfg) (ov : Option AudioFilter) :
    loudnormStage c ov =
      match ov with
      | some f => [f]
      | none => if c.enabled = true then [AudioFilter.loudnorm c.I c.LRA c.TP] else [] := by
  cases ov <;> rfl

/-- C7: `build_audio_filter_chain` emits stages only in the fixed order
de-esser, high-pass, presence EQ, loudness, limiter; each stage appears
only under its condition (de-esser: enabled and intensity > 0; high-pass:
enabled and frequency > 0; presence EQ: enabled and `|gain_db|` above the
`1e-3` epsilon; loudness: the supplied override, else enabled; limiter:
requested and enabled); when no stage qualifies the chain is the no-op
passthrough. -/
theorem c7_filter_chain_order_conditions_passthrough (config : AudioConfig)
    (include_limiter : Bool) (loudnorm_override : Option AudioFilter) :
    build_audio_filter_chain config include_limiter loudnorm_override =
      specAudioFilterChain config include_limiter loudnorm_override := by
  unfold build_audio_filter_chain specAudioFilterChain
  rw [deesserStage_eq, highpassStage_eq, presenceStage_eq, limiterStage_eq,
    loudnormStage_eq]
  simp only [List.isEmpty_iff]

lemma override_mem_chain (config : AudioConfig) (il : Bool) (f : AudioFilter) :
    f ∈ build_audio_filter_chain config il (some f) := by
  unfold build_audio_filter_chain
  have hmem : f ∈ deesserStage config.deesser ++ highpassStage config.highpass ++
      presenceStage config.presence_eq ++ loudnormStage config.loudnorm (some f) ++
      limiterStage il config.limiter := by
    simp [loudnormStage]
  rw [if_neg (by simp only [List.isEmpty_iff]; exact List.ne_nil_of_mem hmem)]
  exact hmem

/-- C3: for every config and five-field stats record,
`build_two_pass_loudnorm_filter` builds the loudness stage embedding all
five measured values (`measured_I`, `measured_LRA`, `measured_TP`,
`measured_thresh`, `offset`) together with `linear=true`, that stage is in
the produced chain, and that chain is the one `mux_video_audio` selects for
the final encode when the analysis succeeds. -/
theorem c3_two_pass_filter_embeds_measurements (config : AudioConfig)
    (stats : LoudnormStats) :
    build_two_pass_loudnorm_filter config stats =
      build_audio_filter_chain config true
        (some (.loudnormMeasured config.loudnorm.I config.loudnorm.LRA config.loudnorm.TP
          stats.input_i stats.input_lra stats.input_tp stats.input_thresh
          stats.target_offset true)) ∧
    AudioFilter.loudnormMeasured config.loudnorm.I config.loudnorm.LRA config.loudnorm.TP
        stats.input_i stats.input_lra stats.input_tp stats.input_thresh
        stats.target_offset true ∈ build_two_pass_loudnorm_filter config stats ∧
    (∀ res : EncoderResult, run_loudnorm_analysis res = some stats →
      config.loudnorm.enabled = true → config.loudnorm.two_pass = true →
      mux_audio_filters config res = build_two_pass_loudnorm_filter config stats) := by
  refine ⟨rfl, override_mem_chain config true _, ?_⟩
  intro res hres h1 h2
  simp [mux_audio_filters, h1, h2, hres]

/-- Witness for C3 at the spec's own mocked stats:
`{input_i: -20, input_lra: 8, input_tp: -3, input_thresh: -30,
target_offset: 1.2}` against the two-pass variant of the default config. -/
theorem c3_two_pass_filter_embeds_measurements_witness :
    run_loudnorm_analysis ⟨0, some ⟨-20, 8, -3, -30, 6/5⟩⟩ =
      some (⟨-20, 8, -3, -30, 6/5⟩ : LoudnormStats) ∧
    ({ DEFAULT_AUDIO_POSTPROCESSING with
        loudnorm := { DEFAULT_AUDIO_POSTPROCESSING.loudnorm with two_pass := true } }
      : AudioConfig).loudnorm.enabled = true ∧
    mux_audio_filters
        { DEFAULT_AUDIO_POSTPROCESSING with
          loudnorm := { DEFAULT_AUDIO_POSTPROCESSING.loudnorm with two_pass := true } }
        ⟨0, some ⟨-20, 8, -3, -30, 6/5⟩⟩ =
      build_two_pass_loudnorm_filter
        { DEFAULT_AUDIO_POSTPROCESSING with
          loudnorm := { DEFAULT_AUDIO_POSTPROCESSING.loudnorm with two_pass := true } }
        ⟨-20, 8, -3, -30, 6/5⟩ := by
  refine ⟨rfl, rfl, ?_⟩
  exact (c3_two_pass_filter_embeds_measurements _ ⟨-20, 8, -3, -30, 6/5⟩).2.2
    ⟨0, some ⟨-20, 8, -3, -30, 6/5⟩⟩ rfl rfl rfl

/-- C4: when two-pass loudness normalization is configured and the analysis
pass exits non-zero or its statistics block cannot be located/parsed,
`mux_video_audio` selects the single-pass filter chain instead, and the run
proceeds to the final mux encode — the condition is handled by this
fallback branch, not by an exception. -/
theorem c4_analysis_failure_single_pass_fallback (config : AudioConfig)
    (res : EncoderResult)
    (h1 : config.loudnorm.enabled = true) (h2 : config.loudnorm.two_pass = true)
    (h3 : res.returncode ≠ 0 ∨ res.parsedStats = none) :
    run_loudnorm_analysis res = none ∧
    mux_audio_filters config res = build_audio_filter_chain config true none ∧
    mux_video_audio config res =
      [.analysisPass (loudnorm_analysis_chain config),
       .muxEncode (build_audio_filter_chain config true none)] := by
  have hnone : run_loudnorm_analysis res = none := by
    rcases h3 with h | h
    · simp [run_loudnorm_analysis, h]
    · unfold run_loudnorm_analysis
      split <;> simp [h]
  have hsel : mux_audio_filters config res = build_audio_filter_chain config true none := by
    simp [mux_audio_filters, h1, h2, hnone, build_audio_filter_chain]
  refine ⟨hnone, hsel, ?_⟩
  simp [mux_video_audio, h1, h2, hsel]

/-- Witness for C4: two-pass default config, analysis exiting with code 1. -/
theorem c4_analysis_failure_single_pass_fallback_witness :
    run_loudnorm_analysis ⟨1, none⟩ = none ∧
    mux_audio_filters
        { DEFAULT_AUDIO_POSTPROCESSING with
          loudnorm := { DEFAULT_AUDIO_POSTPROCESSING.loudnorm with two_pass := true } }
        ⟨1, none⟩ =
      build_audio_filter_chain
        { DEFAULT_AUDIO_POSTPROCESSING with
          loudnorm := { DEFAULT_AUDIO_POSTPROCESSING.loudnorm with two_pass := true } }
        true none := by
  have main := c4_analysis_failure_single_pass_fallback
    { DEFAULT_AUDIO_POSTPROCESSING with
      loudnorm := { DEFAULT_AUDIO_POSTPROCESSING.loudnorm with two_pass := true } }
    ⟨1, none⟩ rfl rfl (Or.inl (by decide))
  exact ⟨main.1, main.2.1⟩

/-- C6, amended: the limiter stage's effective ceiling is
`min(1.0, base_limit + (1 - base_limit) * (1 - max(0, intensity)))` — the
source clamps the intensity below at 0 before applying the formula.  For
every non-negative intensity this coincides with the claimed formula;
intensity 1.0 with `base_limit = 0.891` yields exactly `0.891` and
intensity 0.0 yields exactly `1.0`. -/
theorem c6_limiter_ceiling_amended (config : AudioConfig)
    (h : config.limiter.enabled = true) :
    limiterStage true config.limiter =
      [AudioFilter.alimiter
        (min 1 (config.limiter.base_limit +
          (1 - config.limiter.base_limit) * (1 - max 0 config.limiter.intensity)))
        config.limiter.attack config.limiter.release] ∧
    AudioFilter.alimiter
        (min 1 (config.limiter.base_limit +
          (1 - config.limiter.base_limit) * (1 - max 0 config.limiter.intensity)))
        config.limiter.attack config.limiter.release ∈
      build_audio_filter_chain config true none ∧
    (0 ≤ config.limiter.intensity →
      min 1 (config.limiter.base_limit +
          (1 - config.limiter.base_limit) * (1 - max 0 config.limiter.intensity)) =
        min 1 (config.limiter.base_limit +
          (1 - config.limiter.base_limit) * (1 - config.limiter.intensity))) ∧
    (config.limiter.base_limit = 891/1000 → config.limiter.intensity = 1 →
      min 1 (config.limiter.base_limit +
          (1 - config.limiter.base_limit) * (1 - max 0 config.limiter.intensity)) =
        891/1000) ∧
    (config.limiter.intensity = 0 →
      min 1 (config.limiter.base_limit +
          (1 - config.limiter.base_limit) * (1 - max 0 config.limiter.intensity)) = 1) := by
  have hstage : limiterStage true config.limiter =
      [AudioFilter.alimiter
        (min 1 (config.limiter.base_limit +
          (1 - config.limiter.base_limit) * (1 - max 0 config.limiter.intensity)))
        config.limiter.attack config.limiter.release] := by
    rw [limiterStage_eq]
    simp [h]
  refine ⟨hstage, ?_, ?_, ?_, ?_⟩
  · unfold build_audio_filter_chain
    have hmem : AudioFilter.alimiter
        (min 1 (config.limiter.base_limit +
          (1 - config.limiter.base_limit) * (1 - max 0 config.limiter.intensity)))
        config.limiter.attack config.limiter.release ∈
        deesserStage config.deesser ++ highpassStage config.highpass ++
          presenceStage config.presence_eq ++ loudnormStage config.loudnorm none ++
          limiterStage true config.limiter := by
      simp [hstage]
    rw [if_neg (by simp only [List.isEmpty_iff]; exact List.ne_nil_of_mem hmem)]
    exact hmem
  · intro h0
    rw [max_eq_right h0]
  · intro hb hi
    rw [hb, hi]
    norm_num
  · intro hi
    rw [hi]
    norm_num

/-- Witness for C6 at the default config (`base_limit = 0.891`,
`intensity = 1.0`, limiter enabled): the effective ceiling is `0.891`. -/
theorem c6_limiter_ceiling_amended_witness :
    DEFAULT_AUDIO_POSTPROCESSING.limiter.enabled = true ∧
    limiterStage true DEFAULT_AUDIO_POSTPROCESSING.limiter =
      [AudioFilter.alimiter
        (min 1 (DEFAULT_AUDIO_POSTPROCESSING.limiter.base_limit +
          (1 - DEFAULT_AUDIO_POSTPROCESSING.limiter.base_limit) *
            (1 - max 0 DEFAULT_AUDIO_POSTPROCESSING.limiter.intensity)))
        DEFAULT_AUDIO_POSTPROCESSING.limiter.attack
        DEFAULT_AUDIO_POSTPROCESSING.limiter.release] ∧
    min 1 (DEFAULT_AUDIO_POSTPROCESSING.limiter.base_limit +
        (1 - DEFAULT_AUDIO_POSTPROCESSING.limiter.base_limit) *
          (1 - max 0 DEFAULT_AUDIO_POSTPROCESSING.limiter.intensity)) = 891/1000 := by
  have main := c6_limiter_ceiling_amended DEFAULT_AUDIO_POSTPROCESSING rfl
  exact ⟨rfl, main.1, main.2.2.2.1 rfl rfl⟩

/-- A configuration on which the claimed (unclamped) ceiling formula
disagrees with the source: limiter enabled, `base_limit = 2`,
`intensity = -1`. -/
def limiterCounterexampleConfig : AudioConfig :=
  { deesser := { enabled := false, intensity := 0, mode := "wide", frequency := 6000 }
    highpass := { enabled := false, frequency := 80 }
    presence_eq := { enabled := false, frequency := 3000, width_octave := 3/2, gain_db := 3/2 }
    loudnorm := { enabled := false, two_pass := false, I := -16, LRA := 11, TP := -3/2 }
    limiter := { enabled := true, intensity := -1, base_limit := 2, attack := 5, release := 50 } }

/-- Counterexample to C6 as stated: on `limiterCounterexampleConfig` the
source emits the limiter ceiling `1.0` (it clamps the intensity to
`max(0, intensity)` first), while the claim's formula
`min(1.0, base_limit + (1 - base_limit) * (1 - intensity))` gives `0`. -/
theorem c6_limiter_ceiling_counterexample :
    build_audio_filter_chain limiterCounterexampleConfig true none =
      [AudioFilter.alimiter 1 5 50] ∧
    min 1 (limiterCounterexampleConfig.limiter.base_limit +
        (1 - limiterCounterexampleConfig.limiter.base_limit) *
          (1 - limiterCounterexampleConfig.limiter.intensity)) = 0 ∧
    (1 : ℚ) ≠ 0 := by
  have hmax : max (0:ℚ) (-1) = 0 := max_eq_left (by norm_num)
  refine ⟨?_, ?_, by norm_num⟩
  · simp only [build_audio_filter_chain, deesserStage, highpassStage, presenceStage,
      loudnormStage, limiterStage, limiterCounterexampleConfig]
    norm_num [hmax, min_self]
  · have h2 : limiterCounterexampleConfig.limiter.base_limit = 2 := rfl
    have h3 : limiterCounterexampleConfig.limiter.intensity = -1 := rfl
    rw [h2, h3]
    have h4 : (2:ℚ) + (1 - 2) * (1 - -1) = 0 := by norm_num
    rw [h4]
    exact min_eq_right (by norm_num)

/-! ## The preflight validator: C9 and C10 -/

lemma preflightScan_eq (wav mp3 : Nat → Bool) (notes : List Note) :
    preflightScan wav mp3 notes =
      ((notes.filter (fun n => is_narrated_slide n && !wav n.slide)).map Note.slide,
       (notes.filter
          (fun n => is_narrated_slide n && !wav n.slide && mp3 n.slide)).map Note.slide) := by
  induction notes with
  | nil => rfl
  | cons n rest ih =>
    simp only [preflightScan, ih]
    by_cases h1 : is_narrated_slide n <;> by_cases h2 : wav n.slide <;>
      by_cases h3 : mp3 n.slide <;> simp [h1, h2, h3, List.filter_cons]

/-- C9: `preflight_audio_files` returns normally iff every narrated slide
(non-empty stripped text) has its WAV; otherwise it fails hard, before any
encoder is invoked, with a report listing every missing narrated slide in
note order, and listing a legacy MP3 found at a missing slide's number only
in the soft-diagnostic field. -/
theorem c9_preflight_fails_iff_missing_narration (notes : List Note)
    (wav mp3 : Nat → Bool) :
    (preflight_audio_files notes wav mp3 = .ok () ↔
      ∀ n ∈ notes, is_narrated_slide n = true → wav n.slide = true) ∧
    (∀ r, preflight_audio_files notes wav mp3 = .error r →
      r.missing_wav =
        (notes.filter (fun n => is_narrated_slide n && !wav n.slide)).map Note.slide ∧
      r.legacy_mp3_present =
        (notes.filter
          (fun n => is_narrated_slide n && !wav n.slide && mp3 n.slide)).map Note.slide) ∧
    ((∃ n ∈ notes, is_narrated_slide n = true ∧ wav n.slide = false) →
      ∃ r, preflight_audio_files notes wav mp3 = .error r) ∧
    (∀ (fs : FS) padDur config xfadeFails analysisRes r,
      fs.audioRaw = wav → fs.mp3Exists = mp3 →
      preflight_audio_files notes wav mp3 = .error r →
      mainCmds notes fs padDur config xfadeFails analysisRes = .error r) := by
  have hpre : preflight_audio_files notes wav mp3 =
      if ((notes.filter (fun n => is_narrated_slide n && !wav n.slide)).map
            Note.slide).isEmpty = true
      then .ok ()
      else .error
        ⟨(notes.filter (fun n => is_narrated_slide n && !wav n.slide)).map Note.slide,
         (notes.filter
            (fun n => is_narrated_slide n && !wav n.slide && mp3 n.slide)).map Note.slide⟩ := by
    simp only [preflight_audio_files, preflightScan_eq]
  have hiff : ((notes.filter (fun n => is_narrated_slide n && !wav n.slide)).map
        Note.slide) = [] ↔
      ∀ n ∈ notes, is_narrated_slide n = true → wav n.slide = true := by
    rw [List.map_eq_nil_iff, List.filter_eq_nil_iff]
    constructor
    · intro hall n hn hnar
      have := hall n hn
      simp [hnar] at this
      exact this
    · intro hall n hn
      simp only [Bool.and_eq_true, Bool.not_eq_true', not_and]
      intro hnar
      simp [hall n hn hnar]
  refine ⟨?_, ?_, ?_, ?_⟩
  · rw [hpre]
    by_cases h : ((notes.filter (fun n => is_narrated_slide n && !wav n.slide)).map
        Note.slide).isEmpty = true
    · rw [if_pos h]
      exact iff_of_true rfl (hiff.mp (List.isEmpty_iff.mp h))
    · rw [if_neg h]
      refine iff_of_false (by simp) ?_
      intro hall
      exact h (by rw [List.isEmpty_iff]; exact hiff.mpr hall)
  · intro r hr
    rw [hpre] at hr
    split at hr
    · exact absurd hr (by simp)
    · cases hr
      exact ⟨rfl, rfl⟩
  · intro hex
    rw [hpre]
    split
    · rename_i hemp
      exfalso
      obtain ⟨n, hn, hnar, hwav⟩ := hex
      have := hiff.mp (List.isEmpty_iff.mp hemp) n hn hnar
      rw [this] at hwav
      exact Bool.noConfusion hwav
    · exact ⟨_, rfl⟩
  · intro fs padDur config xfadeFails analysisRes r hw hm hpre'
    unfold mainCmds
    rw [hw, hm, hpre']
    rfl

/-- Witness for C9: slide 1 narrated with no WAV but a legacy MP3, slide 2
narrated with its WAV present — the run fails with slide 1 reported missing
and its MP3 only in the diagnostic field. -/
theorem c9_preflight_fails_iff_missing_narration_witness :
    (∃ r, preflight_audio_files [⟨1, "hello"⟩, ⟨2, "world"⟩]
        (fun s => s == 2) (fun s => s == 1) = .error r) ∧
    preflight_audio_files [⟨1, "hello"⟩, ⟨2, "world"⟩]
        (fun s => s == 2) (fun s => s == 1) =
      .error ⟨[1], [1]⟩ := by
  refine ⟨(c9_preflight_fails_iff_missing_narration
      [⟨1, "hello"⟩, ⟨2, "world"⟩] (fun s => s == 2) (fun s => s == 1)).2.2.1
      ⟨⟨1, "hello"⟩, by decide, by decide, by decide⟩, ?_⟩
  rfl

/-- C10: a slide whose text consists only of whitespace characters is
classified as un-narrated — `preflight_audio_files` never requires a WAV
for it nor lists it as missing: inserting such a note changes nothing about
the preflight outcome. -/
theorem c10_whitespace_only_slide_not_narrated (n : Note) (notes : List Note)
    (wav mp3 : Nat → Bool) (h : ∀ c ∈ n.text.data, c.isWhitespace = true) :
    is_narrated_slide n = false ∧
    preflight_audio_files (n :: notes) wav mp3 =
      preflight_audio_files notes wav mp3 := by
  have hstrip : pyStrip n.text = "" := by
    unfold pyStrip
    rw [List.dropWhile_eq_nil_iff.mpr h]
    rfl
  have hnar : is_narrated_slide n = false := by
    unfold is_narrated_slide
    rw [hstrip]
    rfl
  refine ⟨hnar, ?_⟩
  unfold preflight_audio_files
  have : preflightScan wav mp3 (n :: notes) = preflightScan wav mp3 notes := by
    simp [preflightScan, hnar]
  rw [this]

/-- Witness for C10: the note `{slide: 3, text: "  "}` — non-empty text,
whitespace only — is un-narrated, and adding it to an empty notes list (all
WAVs absent) still passes preflight. -/
theorem c10_whitespace_only_slide_not_narrated_witness :
    (∀ c ∈ (String.data "  "), c.isWhitespace = true) ∧
    is_narrated_slide ⟨3, "  "⟩ = false ∧
    preflight_audio_files [⟨3, "  "⟩] (fun _ => false) (fun _ => false) = .ok () := by
  have main := c10_whitespace_only_slide_not_narrated ⟨3, "  "⟩ []
    (fun _ => false) (fun _ => false) (by decide)
  exact ⟨by decide, main.1, by rw [main.2]; rfl⟩

/-! ## Resumability of the pipeline: C2 -/

lemma preflight_ok_of_no_missing (notes : List Note) (wav mp3 : Nat → Bool)
    (h : ∀ n ∈ notes, is_narrated_slide n = true → wav n.slide = true) :
    preflight_audio_files notes wav mp3 = .ok () := by
  have hfil : (notes.filter (fun n => is_narrated_slide n && !wav n.slide)) = [] := by
    rw [List.filter_eq_nil_iff]
    intro n hn
    simp only [Bool.and_eq_true, Bool.not_eq_true', not_and]
    intro hnar
    simp [h n hn hnar]
  simp [preflight_audio_files, preflightScan_eq, hfil]

lemma step1Cmds_nil (fs : FS) (notes : List Note)
    (hpad : ∀ n ∈ notes, fs.audioRaw n.slide = true → fs.padded n.slide = true)
    (hsil : ∀ n ∈ notes, fs.audioRaw n.slide = false → fs.silence n.slide = true) :
    step1Cmds fs notes = [] := by
  unfold step1Cmds
  rw [List.flatMap_eq_nil_iff]
  intro n hn
  by_cases hraw : fs.audioRaw n.slide
  · simp [hraw, hpad n hn hraw]
  · simp [hraw, hsil n hn (by simpa using hraw)]

/-- C2, amended: re-running the pipeline against an unmodified work
directory skips every stage whose intermediate artifact already exists —
per-slide padding, silence synthesis, audio concatenation and the video
slideshow — but the final mux step is not guarded by an existence check:
the second run performs exactly the mux-stage encoder invocations (the
final encode, plus the analysis pass when two-pass loudness is configured),
never zero, regardless of whether the final output file exists. -/
theorem c2_rerun_skips_all_but_mux_amended (notes : List Note) (fs : FS)
    (padDur : Nat → ℚ) (config : AudioConfig) (xfadeFails : Bool)
    (analysisRes : EncoderResult)
    (hpre : ∀ n ∈ notes, is_narrated_slide n = true → fs.audioRaw n.slide = true)
    (hpad : ∀ n ∈ notes, fs.audioRaw n.slide = true → fs.padded n.slide = true)
    (hsil : ∀ n ∈ notes, fs.audioRaw n.slide = false → fs.silence n.slide = true)
    (hfa : fs.fullAudio = true) (hvo : fs.videoOnly = true) :
    mainCmds notes fs padDur config xfadeFails analysisRes =
      .ok (mux_video_audio config analysisRes) ∧
    (mux_video_audio config analysisRes).length ≠ 0 := by
  constructor
  · unfold mainCmds
    rw [preflight_ok_of_no_missing notes fs.audioRaw fs.mp3Exists hpre,
      step1Cmds_nil fs notes hpad hsil, hfa, hvo]
    rfl
  · unfold mux_video_audio
    split <;> simp

/-- The filesystem state after a completed first run: raw narration WAVs
and every work-area artifact (including the final output) present. -/
def completedRunFS : FS :=
  { audioRaw := fun _ => true
    mp3Exists := fun _ => false
    padded := fun _ => true
    silence := fun _ => true
    fullAudio := true
    videoOnly := true
    segExists := fun _ => true
    outputExists := true }

/-- Counterexample to C2 as stated: with one narrated slide and every
artifact of the first run present on disk — the final output included —
the second run still performs one encoder invocation, the final mux encode
(`main` never checks the output for existence), so the number of encoder
invocations is not zero and the mux stage is not skipped. -/
theorem c2_rerun_counterexample :
    mainCmds [⟨1, "hi"⟩] completedRunFS (fun _ => 4) DEFAULT_AUDIO_POSTPROCESSING
        false ⟨0, none⟩ =
      .ok [Cmd.muxEncode (build_audio_filter_chain DEFAULT_AUDIO_POSTPROCESSING true none)] ∧
    completedRunFS.outputExists = true ∧
    [Cmd.muxEncode (build_audio_filter_chain DEFAULT_AUDIO_POSTPROCESSING true none)].length ≠ 0 := by
  exact ⟨rfl, rfl, by simp⟩

/-- Witness for the amended C2 at the same concrete run. -/
theorem c2_rerun_skips_all_but_mux_amended_witness :
    mainCmds [⟨1, "hi"⟩] completedRunFS (fun _ => 4) DEFAULT_AUDIO_POSTPROCESSING
        false ⟨0, none⟩ =
      .ok (mux_video_audio DEFAULT_AUDIO_POSTPROCESSING ⟨0, none⟩) ∧
    (mux_video_audio DEFAULT_AUDIO_POSTPROCESSING ⟨0, none⟩).length ≠ 0 := by
  exact c2_rerun_skips_all_but_mux_amended [⟨1, "hi"⟩] completedRunFS (fun _ => 4)
    DEFAULT_AUDIO_POSTPROCESSING false ⟨0, none⟩
    (by intro n hn _; rfl) (by intro n hn _; rfl) (by intro n hn h; cases h) rfl rfl

/-! ## The configuration deep merge: C8 -/

lemma jLookup_eq_none_of_not_mem (l : List (String × J)) (k : String)
    (h : k ∉ l.map Prod.fst) : jLookup l k = none := by
  induction l with
  | nil => rfl
  | cons p rest ih =>
    obtain ⟨k', v⟩ := p
    simp only [List.map_cons, List.mem_cons, not_or] at h
    simp only [jLookup]
    rw [if_neg (fun he => h.1 he.symm)]
    exact ih h.2

lemma jLookup_jUpdate (l : List (String × J)) (k : String) (v : J) (k' : String) :
    jLookup (jUpdate l k v) k' = if k' = k then some v else jLookup l k' := by
  induction l with
  | nil =>
    by_cases h : k' = k
    · subst h
      simp [jUpdate, jLookup]
    · simp only [jUpdate, jLookup]
      rw [if_neg (fun he => h he.symm), if_neg h]
  | cons p rest ih =>
    obtain ⟨k0, v0⟩ := p
    simp only [jUpdate]
    by_cases h0 : k0 = k
    · rw [if_pos h0]
      by_cases h' : k' = k
      · subst h'
        simp [jLookup]
      · simp only [jLookup]
        rw [if_neg (fun he => h' he.symm), if_neg h',
          if_neg (fun he : k0 = k' => h' (h0 ▸ he.symm))]
    · rw [if_neg h0]
      by_cases hk0 : k0 = k'
      · simp only [jLookup]
        rw [if_pos hk0, if_pos hk0, if_neg (fun he : k' = k => h0 (hk0.trans he))]
      · simp only [jLookup]
        rw [if_neg hk0, if_neg hk0, ih]

lemma jLookup_deepMergeObj (ov : List (String × J)) :
    ∀ (base : List (String × J)) (k : String), (ov.map Prod.fst).Nodup →
      jLookup (deepMergeObj base ov) k =
        match jLookup ov k, jLookup base k with
        | none, _ => jLookup base k
        | some (J.obj o2), some (J.obj o1) => some (J.obj (deepMergeObj o1 o2))
        | some v, _ => some v := by
  induction ov with
  | nil =>
    intro base k _
    rw [deepMergeObj]
    rfl
  | cons p rest ih =>
    intro base k hnd
    obtain ⟨k0, v0⟩ := p
    rw [List.map_cons, List.nodup_cons] at hnd
    rw [deepMergeObj, ih _ k hnd.2]
    by_cases hk : k = k0
    · subst hk
      have hrest : jLookup rest k = none := jLookup_eq_none_of_not_mem _ _ hnd.1
      have hhead : jLookup ((k, v0) :: rest) k = some v0 := by
        simp [jLookup]
      rw [hrest, hhead]
      have hupd : jLookup (jUpdate base k (mergeEntry (jLookup base k) v0)) k =
          some (mergeEntry (jLookup base k) v0) := by
        rw [jLookup_jUpdate, if_pos rfl]
      rw [hupd]
      cases hb : jLookup base k with
      | none => cases v0 <;> simp [mergeEntry]
      | some j => cases j <;> cases v0 <;> simp [mergeEntry]
    · have hhead : jLookup ((k0, v0) :: rest) k = jLookup rest k := by
        simp only [jLookup]
        rw [if_neg (fun he => hk he.symm)]
      have hupd : jLookup (jUpdate base k0 (mergeEntry (jLookup base k0) v0)) k =
          jLookup base k := by
        rw [jLookup_jUpdate, if_neg hk]
      rw [hhead, hupd]

/-- C8: `load_audio_postprocess_config` deep-merges three layers in order —
built-in defaults, the language's `audio_postprocessing`, the voice's
override — where the merge assigns each key of the override: two nested
objects are merged recursively and any other override value replaces the
accumulated one outright; a missing or malformed config file, or an absent
language entry, degrades to the built-in defaults without raising. -/
theorem c8_three_layer_deep_merge :
    (∀ (base ov : List (String × J)) (k : String), (ov.map Prod.fst).Nodup →
      jLookup (deepMergeObj base ov) k =
        match jLookup ov k, jLookup base k with
        | none, _ => jLookup base k
        | some (J.obj o2), some (J.obj o1) => some (J.obj (deepMergeObj o1 o2))
        | some v, _ => some v) ∧
    (∀ lang voice_id,
      load_audio_postprocess_config .missing lang voice_id = .ok defaultAPCJson ∧
      load_audio_postprocess_config .malformed lang voice_id = .ok defaultAPCJson) ∧
    (∀ allConfig lang voice_id, jLookup allConfig lang = none →
      load_audio_postprocess_config (.parsed allConfig) lang voice_id =
        .ok defaultAPCJson) ∧
    (∀ allConfig lang lc ap,
      jLookup allConfig lang = some (J.obj lc) → lc ≠ [] →
      jLookup lc "audio_postprocessing" = some (J.obj ap) →
      load_audio_postprocess_config (.parsed allConfig) lang none =
        .ok (deepMergeObj defaultAPCJson ap)) ∧
    (∀ allConfig lang lc ap v vo vc vap,
      jLookup allConfig lang = some (J.obj lc) → lc ≠ [] →
      jLookup lc "audio_postprocessing" = some (J.obj ap) →
      v ≠ "" →
      jLookup lc "voice_overrides" = some (J.obj vo) →
      jLookup vo v = some (J.obj vc) →
      jLookup vc "audio_postprocessing" = some (J.obj vap) →
      load_audio_postprocess_config (.parsed allConfig) lang (some v) =
        .ok (deepMergeObj (deepMergeObj defaultAPCJson ap) vap)) := by
  refine ⟨fun base ov k h => jLookup_deepMergeObj ov base k h,
    fun _ _ => ⟨rfl, rfl⟩, ?_, ?_, ?_⟩
  · intro allConfig lang voice_id h
    simp [load_audio_postprocess_config, h, pyTruthy]
  · intro allConfig lang lc ap h1 h2 h3
    have htr : pyTruthy (some (J.obj lc)) = true := by
      simp [pyTruthy, List.isEmpty_iff, h2]
    simp only [load_audio_postprocess_config, h1, htr, Bool.not_true,
      Bool.false_eq_true, if_false, jGetObjD, h3]
  · intro allConfig lang lc ap v vo vc vap h1 h2 h3 h4 h5 h6 h7
    have htr : pyTruthy (some (J.obj lc)) = true := by
      simp [pyTruthy, List.isEmpty_iff, h2]
    simp only [load_audio_postprocess_config, h1, htr, Bool.not_true,
      Bool.false_eq_true, if_false, jGetObjD, h3, h5, h6, h7, ne_eq, h4,
      not_false_eq_true, if_true]

/-- The `audio_postprocessing` override of the witness language entry. -/
def witnessLangAP : List (String × J) :=
  [("loudnorm", J.obj [("two_pass", J.bool true)])]

/-- The `audio_postprocessing` override of the witness voice entry. -/
def witnessVoiceAP : List (String × J) :=
  [("limiter", J.obj [("intensity", J.num 0)])]

/-- A parsed `lang_config.json` with one language (`"en"`) carrying both an
`audio_postprocessing` override and a voice override for `"v1"`. -/
def witnessLangConfig : List (String × J) :=
  [("en", J.obj
    [("audio_postprocessing", J.obj witnessLangAP),
     ("voice_overrides", J.obj [("v1", J.obj
       [("audio_postprocessing", J.obj witnessVoiceAP)])])])]

/-- Witness for C8: the concrete three-layer merge and a concrete key-level
merge step. -/
theorem c8_three_layer_deep_merge_witness :
    load_audio_postprocess_config (.parsed witnessLangConfig) "en" (some "v1") =
      .ok (deepMergeObj (deepMergeObj defaultAPCJson witnessLangAP) witnessVoiceAP) ∧
    load_audio_postprocess_config .missing "en" (some "v1") = .ok defaultAPCJson ∧
    jLookup (deepMergeObj [("a", J.num 1), ("b", J.num 2)] [("b", J.num 3)]) "b" =
      some (J.num 3) := by
  refine ⟨?_, (c8_three_layer_deep_merge.2.1 "en" (some "v1")).1, ?_⟩
  · exact c8_three_layer_deep_merge.2.2.2.2 witnessLangConfig "en" _ witnessLangAP
      "v1" _ _ witnessVoiceAP rfl (by simp [List.cons_ne_nil]) rfl
      (by decide) rfl rfl rfl
  · rw [c8_three_layer_deep_merge.1 [("a", J.num 1), ("b", J.num 2)]
      [("b", J.num 3)] "b" (by simp)]
    simp [jLookup]
